import Mathlib

/-!
Shallow embedding of the Cart Manager of the e-commerce backend
(`CartService` in `cart.service.ts`, the prisma `cart_items` table, the
product catalog lookup of `product.service.ts`, and the request-validation
schema of the cart controller).

Modelling conventions:
* The product catalog (`productService.getProductById`, a prisma
  `findUnique` by id) is a list of products searched by id.
* The `cart_items` table is a list of rows `{userId, productId, quantity}`;
  rows are appended on create, so `createdAt` descending order of
  `getUserCart` is the reverse of the row list.  `prisma.cartItem.upsert`
  on the `(userId, productId)` unique key updates the matching row(s) or
  appends; `delete` that hits no row raises P2025, which the service
  swallows for removal, so removal is a plain filter.
* The in-memory guest-cart map (`CartService.guestCarts`) is an
  association list from session id to `GuestCart`.
* TypeScript numbers holding quantities, stock and prices are embedded as
  `Int` (the service never rounds or truncates them).
* Methods that `throw` are embedded in `Except CartError`; a thrown
  business error occurs before any write, so an `.error` result means the
  stores are unchanged.  `mergeGuestCartWithUserCart` and `validateCart`
  contain no reachable `throw`, and their embeddings only ever produce
  `.ok` (merge wraps each line in a catch-and-continue, validate reports
  everything in its returned result).
-/

structure Product where
  id : String
  name : String
  price : Int
  stock : Int
deriving Repr, DecidableEq

/-- The catalog consulted through `productService.getProductById`. -/
abbrev Catalog := List Product

/-- Embeds `productService.getProductById`: prisma `findUnique` on the product id. -/
def getProductById (cat : Catalog) (productId : String) : Option Product :=
  cat.find? (fun p => p.id = productId)

/-- One row of the `cart_items` table. -/
structure CartItem where
  userId : String
  productId : String
  quantity : Int
deriving Repr, DecidableEq

/-- One entry of a guest cart (`{productId, quantity}` in `GuestCart.items`). -/
structure GuestItem where
  productId : String
  quantity : Int
deriving Repr, DecidableEq

/-- A guest cart: the `items` array (timestamps are not modelled). -/
structure GuestCart where
  items : List GuestItem
deriving Repr, DecidableEq

/-- The in-memory `CartService.guestCarts` map, as an association list. -/
abbrev GuestCarts := List (String × GuestCart)

/-- The state a cart operation can read and write: the `cart_items`
table and the guest-cart map. -/
structure CartState where
  db : List CartItem
  guest : GuestCarts
deriving Repr, DecidableEq

/-- The `userId_productId` unique-key predicate. -/
def matchKey (u p : String) (it : CartItem) : Bool :=
  decide (it.userId = u ∧ it.productId = p)

/-- Embeds `prisma.cartItem.findUnique` on the `userId_productId` key. -/
def findUniqueCartItem (s : CartState) (u p : String) : Option CartItem :=
  s.db.find? (matchKey u p)

/-- Embeds `prisma.cartItem.upsert` on the `userId_productId` key: update the
matching row to `updateQty`, or append a fresh row with `createQty`. -/
def upsertCartItem (s : CartState) (u p : String) (createQty updateQty : Int) :
    CartState :=
  if s.db.any (matchKey u p) then
    { s with db := s.db.map (fun it =>
        if matchKey u p it then { it with quantity := updateQty } else it) }
  else
    { s with db := s.db ++ [{ userId := u, productId := p, quantity := createQty }] }

/-- A cart row joined with its product (`CartItemWithProduct`). -/
structure CartItemWithProduct where
  productId : String
  quantity : Int
  product : Product
deriving Repr, DecidableEq

/-- The derived `CartSummary` projection. -/
structure CartSummary where
  items : List CartItemWithProduct
  totalItems : Int
  totalAmount : Int
  subtotal : Int
deriving Repr, DecidableEq

/-- Embeds `CartService.calculateCartSummary`. -/
def calculateCartSummary (items : List CartItemWithProduct) : CartSummary :=
  let totalItems : Int := items.foldl (fun sum it => sum + it.quantity) 0
  let subtotal : Int := items.foldl (fun sum it => sum + it.product.price * it.quantity) 0
  { items := items, totalItems := totalItems, totalAmount := subtotal, subtotal := subtotal }

/-- Embeds `CartService.createEmptyCartSummary`. -/
def createEmptyCartSummary : CartSummary :=
  { items := [], totalItems := 0, totalAmount := 0, subtotal := 0 }

/-- Join one stored row against the catalog; the relational
`include: { product: true }` yields a row only when its product row
exists, so a row whose product is absent contributes nothing. -/
def joinRow (cat : Catalog) (productId : String) (quantity : Int) :
    Option CartItemWithProduct :=
  (getProductById cat productId).map (fun p =>
    { productId := productId, quantity := quantity, product := p })

/-- Embeds `CartService.getUserCart`: `findMany` of the rows of `userId`, joined
with their products, ordered by `createdAt` descending (rows are appended
on create, so this is the reverse of storage order). -/
def getUserCart (cat : Catalog) (s : CartState) (userId : String) : CartSummary :=
  calculateCartSummary
    (((s.db.filter (fun it => it.userId = userId)).reverse).filterMap
      (fun it => joinRow cat it.productId it.quantity))

/-- Lookup in the guest-cart map. -/
def guestCartsGet (g : GuestCarts) (sid : String) : Option GuestCart :=
  (g.find? (fun e => e.1 = sid)).map (fun e => e.2)

/-- Embeds `Map.set`: overwrite the entry of `sid`, or append it. -/
def guestCartsSet (g : GuestCarts) (sid : String) (c : GuestCart) : GuestCarts :=
  if g.any (fun e => e.1 = sid) then
    g.map (fun e => if e.1 = sid then (sid, c) else e)
  else
    g ++ [(sid, c)]

/-- Embeds `Map.delete`. -/
def guestCartsDelete (g : GuestCarts) (sid : String) : GuestCarts :=
  g.filter (fun e => ¬ e.1 = sid)

/-- Embeds `CartService.getGuestCart`: empty summary when the session has no
cart; otherwise each item is joined against the catalog and items whose
product no longer resolves are dropped. -/
def getGuestCart (cat : Catalog) (s : CartState) (sid : String) : CartSummary :=
  match guestCartsGet s.guest sid with
  | none => createEmptyCartSummary
  | some gc =>
      calculateCartSummary
        (gc.items.filterMap (fun it => joinRow cat it.productId it.quantity))

/-- The error conditions the cart service throws (`Error` messages in the
source): product lookup failed, stock below the requested quantity
(carrying available and requested for the message), `update` hit no row
(P2025 → cart item not found), and a guest update on a missing cart. -/
inductive CartError where
  | productNotFound
  | insufficientStock (available requested : Int)
  | cartItemNotFound
  | guestCartNotFound
deriving Repr, DecidableEq

/-- The `newQuantity` of `addToUserCart`: the quantity already in the row for
the key plus the added quantity, or just the added quantity. -/
def userCombinedQuantity (s : CartState) (userId productId : String) (quantity : Int) : Int :=
  match findUniqueCartItem s userId productId with
  | some it => it.quantity + quantity
  | none => quantity

/-- Embeds `CartService.addToUserCart`. -/
def addToUserCart (cat : Catalog) (s : CartState) (userId productId : String)
    (quantity : Int) : Except CartError (CartState × CartSummary) :=
  match getProductById cat productId with
  | none => .error .productNotFound
  | some product =>
      let newQuantity : Int := userCombinedQuantity s userId productId quantity
      if product.stock < newQuantity then
        .error (.insufficientStock product.stock newQuantity)
      else
        let s1 := upsertCartItem s userId productId quantity newQuantity
        .ok (s1, getUserCart cat s1 userId)

/-- Embeds `CartService.removeFromUserCart`: `delete` on the unique key, with
P2025 (no such row) swallowed, so it is a filter either way. -/
def removeFromUserCart (cat : Catalog) (s : CartState) (userId productId : String) :
    Except CartError (CartState × CartSummary) :=
  let s1 : CartState := { s with db := s.db.filter (fun it => ¬ matchKey userId productId it) }
  .ok (s1, getUserCart cat s1 userId)

/-- Embeds `CartService.updateUserCartItem`. -/
def updateUserCartItem (cat : Catalog) (s : CartState) (userId productId : String)
    (quantity : Int) : Except CartError (CartState × CartSummary) :=
  if quantity = 0 then
    removeFromUserCart cat s userId productId
  else
    match getProductById cat productId with
    | none => .error .productNotFound
    | some product =>
        if product.stock < quantity then
          .error (.insufficientStock product.stock quantity)
        else
          match findUniqueCartItem s userId productId with
          | none => .error .cartItemNotFound
          | some _ =>
              let s1 : CartState := { s with db := s.db.map (fun it =>
                if matchKey userId productId it then { it with quantity := quantity } else it) }
              .ok (s1, getUserCart cat s1 userId)

/-- Embeds `CartService.clearUserCart`: `deleteMany` of the rows of `userId`. -/
def clearUserCart (s : CartState) (userId : String) : CartState :=
  { s with db := s.db.filter (fun it => ¬ it.userId = userId) }

/-- The item-match predicate of the guest operations. -/
def matchPid (p : String) (it : GuestItem) : Bool :=
  decide (it.productId = p)

/-- The `newQuantity` of `addToGuestCart`: the quantity at the found index of
the item array plus the added quantity, or just the added quantity. -/
def guestCombinedQuantity (gc : GuestCart) (productId : String) (quantity : Int) : Int :=
  match (gc.items.findIdx? (matchPid productId)).bind (fun i => gc.items.get? i) with
  | some it => it.quantity + quantity
  | none => quantity

/-- Embeds `CartService.addToGuestCart`. -/
def addToGuestCart (cat : Catalog) (s : CartState) (sid productId : String)
    (quantity : Int) : Except CartError (CartState × CartSummary) :=
  match getProductById cat productId with
  | none => .error .productNotFound
  | some product =>
      let guestCart : GuestCart := (guestCartsGet s.guest sid).getD { items := [] }
      let idx? := guestCart.items.findIdx? (matchPid productId)
      let newQuantity : Int := guestCombinedQuantity guestCart productId quantity
      if product.stock < newQuantity then
        .error (.insufficientStock product.stock newQuantity)
      else
        let items1 : List GuestItem :=
          match idx? with
          | some i => guestCart.items.set i { productId := productId, quantity := newQuantity }
          | none => guestCart.items ++ [{ productId := productId, quantity := quantity }]
        let s1 : CartState := { s with guest := guestCartsSet s.guest sid { items := items1 } }
        .ok (s1, getGuestCart cat s1 sid)

/-- Embeds `CartService.removeFromGuestCart`: empty summary when the session has
no cart (nothing written); otherwise filter the item out and store the
cart back. -/
def removeFromGuestCart (cat : Catalog) (s : CartState) (sid productId : String) :
    Except CartError (CartState × CartSummary) :=
  match guestCartsGet s.guest sid with
  | none => .ok (s, createEmptyCartSummary)
  | some gc =>
      let items1 : List GuestItem := gc.items.filter (fun it => ¬ matchPid productId it)
      let s1 : CartState := { s with guest := guestCartsSet s.guest sid { items := items1 } }
      .ok (s1, getGuestCart cat s1 sid)

/-- Embeds `CartService.updateGuestCartItem`. -/
def updateGuestCartItem (cat : Catalog) (s : CartState) (sid productId : String)
    (quantity : Int) : Except CartError (CartState × CartSummary) :=
  if quantity = 0 then
    removeFromGuestCart cat s sid productId
  else
    match getProductById cat productId with
    | none => .error .productNotFound
    | some product =>
        if product.stock < quantity then
          .error (.insufficientStock product.stock quantity)
        else
          match guestCartsGet s.guest sid with
          | none => .error .guestCartNotFound
          | some gc =>
              match gc.items.findIdx? (matchPid productId) with
              | none => .error .cartItemNotFound
              | some i =>
                  let items1 : List GuestItem :=
                    gc.items.set i { productId := productId, quantity := quantity }
                  let s1 : CartState :=
                    { s with guest := guestCartsSet s.guest sid { items := items1 } }
                  .ok (s1, getGuestCart cat s1 sid)

/-- Embeds `CartService.clearGuestCart`: store an empty cart for the session. -/
def clearGuestCart (s : CartState) (sid : String) : CartState :=
  { s with guest := guestCartsSet s.guest sid { items := [] } }

/-- The combined quantity of one guest line against the account cart
(`existingItem ? existingItem.quantity + guestItem.quantity : guestItem.quantity`). -/
def mergeNewQuantity (s : CartState) (userId : String) (gi : GuestItem) : Int :=
  match findUniqueCartItem s userId gi.productId with
  | some it => it.quantity + gi.quantity
  | none => gi.quantity

/-- The body of the merge loop for one guest line: upsert to the combined
quantity when the product resolves and its stock covers it, otherwise
leave the account cart untouched (the skip is silent; the surrounding
`catch` only logs). -/
def mergeStep (cat : Catalog) (userId : String) (acc : CartState) (gi : GuestItem) :
    CartState :=
  let newQuantity := mergeNewQuantity acc userId gi
  match getProductById cat gi.productId with
  | some product =>
      if product.stock ≥ newQuantity then
        upsertCartItem acc userId gi.productId gi.quantity newQuantity
      else acc
  | none => acc

/-- Embeds `CartService.mergeGuestCartWithUserCart`: no guest cart means return
the account cart unchanged; otherwise process each guest line with
`mergeStep`, then delete the guest cart and return the refreshed account
summary.  The method never throws: every per-line failure is caught and
the loop continues. -/
def mergeGuestCartWithUserCart (cat : Catalog) (s : CartState)
    (userId guestSessionId : String) : CartState × CartSummary :=
  match guestCartsGet s.guest guestSessionId with
  | none => (s, getUserCart cat s userId)
  | some gc =>
      let s1 := gc.items.foldl (mergeStep cat userId) s
      let s2 : CartState := { s1 with guest := guestCartsDelete s1.guest guestSessionId }
      (s2, getUserCart cat s2 userId)

/-- One stock-shortfall entry of a validation result. -/
structure StockIssue where
  productId : String
  requestedQuantity : Int
  availableStock : Int
deriving Repr, DecidableEq

/-- Embeds `CartValidationResult`. -/
structure CartValidationResult where
  isValid : Bool
  errors : List String
  unavailableItems : List String
  stockIssues : List StockIssue
deriving Repr, DecidableEq

/-- The per-line body of the validation loop of `CartService.validateCart`. -/
def validateStep (cat : Catalog) (r : CartValidationResult)
    (item : CartItemWithProduct) : CartValidationResult :=
  match getProductById cat item.productId with
  | none =>
      { r with
        unavailableItems := r.unavailableItems ++ [item.productId]
        errors := r.errors ++ ["Product " ++ item.productId ++ " no longer available"]
        isValid := false }
  | some product =>
      if product.stock < item.quantity then
        { r with
          stockIssues := r.stockIssues ++
            [{ productId := item.productId, requestedQuantity := item.quantity,
               availableStock := product.stock }]
          errors := r.errors ++
            ["Insufficient stock for " ++ product.name ++ ". Available: " ++
              toString product.stock ++ ", Requested: " ++ toString item.quantity]
          isValid := false }
      else r

/-- JavaScript truthiness of the `string | null` owner arguments of
`validateCart` (`null` and the empty string are falsy). -/
def optTruthy : Option String → Bool
  | some s => !s.isEmpty
  | none => false

/-- The validation loop of `CartService.validateCart`, starting from the
all-clear result (`isValid: true`, empty lists) and folding `validateStep`
over the loaded summary lines. -/
def validateItemsRun (cat : Catalog) (items : List CartItemWithProduct) :
    CartValidationResult :=
  items.foldl (validateStep cat)
    { isValid := true, errors := [], unavailableItems := [], stockIssues := [] }

/-- Embeds `CartService.validateCart`.  The source contains no `throw`: the
missing-owner case pushes the error `No cart found` into the result and
returns it, and every per-line issue is reported inside the result, so
the embedding only ever produces `.ok`. -/
def validateCart (cat : Catalog) (s : CartState) (userId sessionId : Option String) :
    Except CartError CartValidationResult :=
  if optTruthy userId then
    .ok (validateItemsRun cat (getUserCart cat s (userId.getD "")).items)
  else if optTruthy sessionId then
    .ok (validateItemsRun cat (getGuestCart cat s (sessionId.getD "")).items)
  else
    .ok { isValid := false, errors := ["No cart found"], unavailableItems := [], stockIssues := [] }

/-- The quantity constraint of the `addToCartSchema` of the HTTP layer
(`z.number().int().positive()`), over the integers the embedding uses. -/
def addToCartSchemaQuantityOk (quantity : Int) : Bool :=
  decide (0 < quantity)

/-!
Concrete fixtures (catalog: product A price 7 stock 10, product B price 3
stock 2, product C price 1 stock 4) used to exercise the definitions.
-/

def demoCatalog : Catalog :=
  [{ id := "A", name := "A", price := 7, stock := 10 },
   { id := "B", name := "B", price := 3, stock := 2 },
   { id := "C", name := "C", price := 1, stock := 4 }]

/-- Empty account cart; guest session `g` holds A×2 and B×5. -/
def demoMergeState : CartState :=
  { db := [], guest := [("g", { items := [{ productId := "A", quantity := 2 },
                                          { productId := "B", quantity := 5 }] })] }

/-- Account cart holds A×1; guest session `g` holds A×2. -/
def demoAccumState : CartState :=
  { db := [{ userId := "u", productId := "A", quantity := 1 }],
    guest := [("g", { items := [{ productId := "A", quantity := 2 }] })] }

/-- Account cart holds C×3 (product C has stock 4). -/
def demoStockState : CartState :=
  { db := [{ userId := "u", productId := "C", quantity := 3 }], guest := [] }

instance {e a : Type} [DecidableEq e] [DecidableEq a] : DecidableEq (Except e a) := fun x y =>
  match x, y with
  | .error u, .error v =>
      if h : u = v then .isTrue (by rw [h]) else .isFalse (by intro hh; cases hh; exact h rfl)
  | .ok u, .ok v =>
      if h : u = v then .isTrue (by rw [h]) else .isFalse (by intro hh; cases hh; exact h rfl)
  | .error _, .ok _ => .isFalse (by intro hh; cases hh)
  | .ok _, .error _ => .isFalse (by intro hh; cases hh)

/-!
## Well-formedness: at most one line per (owner, productId)

`cart_items` carries the unique index `cart_items_userId_productId_key`;
guest carts are built so that `items` never holds two entries for the
same product.
-/

/-- Two `cart_items` rows do not collide on the `userId_productId` key. -/
def UserKeyDistinct (a b : CartItem) : Prop :=
  ¬ (a.userId = b.userId ∧ a.productId = b.productId)

/-- The `cart_items` table satisfies the unique index. -/
def DBWellFormed (db : List CartItem) : Prop :=
  db.Pairwise UserKeyDistinct

/-- A guest cart holds at most one entry per product. -/
def GuestCartWellFormed (gc : GuestCart) : Prop :=
  gc.items.Pairwise (fun a b => a.productId ≠ b.productId)

/-- Every cart of every owner holds at most one line per product. -/
def CartStateWF (s : CartState) : Prop :=
  DBWellFormed s.db ∧ ∀ e ∈ s.guest, GuestCartWellFormed e.2

/-!
## Helper lemmas
-/

theorem matchKey_eq_true {u p : String} {it : CartItem} :
    matchKey u p it = true ↔ it.userId = u ∧ it.productId = p := by
  simp [matchKey]

theorem matchPid_eq_true {p : String} {it : GuestItem} :
    matchPid p it = true ↔ it.productId = p := by
  simp [matchPid]

/-- After a `delete`, the session has no guest cart. -/
theorem guestCartsGet_delete_self (g : GuestCarts) (sid : String) :
    guestCartsGet (guestCartsDelete g sid) sid = none := by
  unfold guestCartsGet guestCartsDelete
  have hfind : List.find? (fun e => decide (e.1 = sid)) (List.filter (fun e => decide ¬ e.1 = sid) g) = none := by
    rw [List.find?_eq_none]
    intro e he
    simp only [List.mem_filter] at he
    simpa using he.2
  rw [hfind]
  rfl

/-- After a `set`, looking the session up returns the stored cart. -/
theorem guestCartsGet_set_self (g : GuestCarts) (sid : String) (c : GuestCart) :
    guestCartsGet (guestCartsSet g sid c) sid = some c := by
  unfold guestCartsSet
  split
  · next h =>
    induction g with
    | nil => simp at h
    | cons a t ih =>
      by_cases ha : a.1 = sid
      · simp [guestCartsGet, List.find?_cons, ha]
      · have ht : t.any (fun e => decide (e.1 = sid)) = true := by
          simpa [List.any_cons, ha] using h
        simpa [guestCartsGet, List.find?_cons, ha] using ih ht
  · next h =>
    have hg : g.find? (fun e => decide (e.1 = sid)) = none := by
      rw [List.find?_eq_none]
      intro e he hd
      exact h (List.any_eq_true.mpr ⟨e, he, hd⟩)
    simp [guestCartsGet, List.find?_append, hg]

/-- Entries after a `set` are the stored entry or entries of the old map. -/
theorem mem_guestCartsSet {g : GuestCarts} {sid : String} {c : GuestCart} {e : String × GuestCart}
    (he : e ∈ guestCartsSet g sid c) : e = (sid, c) ∨ e ∈ g := by
  unfold guestCartsSet at he
  split at he
  · rcases List.mem_map.mp he with ⟨a, ha, rfl⟩
    by_cases h : a.1 = sid
    · left; simp [h]
    · right; simpa [h] using ha
  · rcases List.mem_append.mp he with h | h
    · right; exact h
    · left; simpa using h

/-- Entries after a `delete` were entries of the old map. -/
theorem mem_guestCartsDelete {g : GuestCarts} {sid : String} {e : String × GuestCart}
    (he : e ∈ guestCartsDelete g sid) : e ∈ g :=
  List.mem_filter.mp he |>.1

theorem find?_map_update (u p : String) (uq : Int) :
    ∀ (l : List CartItem) (it : CartItem), l.find? (matchKey u p) = some it →
      (l.map (fun x => if matchKey u p x then { x with quantity := uq } else x)).find?
        (matchKey u p) = some { userId := u, productId := p, quantity := uq } := by
  intro l
  induction l with
  | nil => intro it h; simp at h
  | cons a t ih =>
    intro it h
    by_cases hm : matchKey u p a = true
    · obtain ⟨h1, h2⟩ := matchKey_eq_true.mp hm
      have hm2 : matchKey u p { a with quantity := uq } = true :=
        matchKey_eq_true.mpr ⟨h1, h2⟩
      cases a
      simp_all [List.find?_cons]
    · have ht : t.find? (matchKey u p) = some it := by
        simpa [List.find?_cons, hm] using h
      simpa [List.find?_cons, hm] using ih it ht

theorem find?_append_new (u p : String) (cq : Int) {l : List CartItem}
    (h : l.find? (matchKey u p) = none) :
    (l ++ [({ userId := u, productId := p, quantity := cq } : CartItem)]).find? (matchKey u p) =
      some { userId := u, productId := p, quantity := cq } := by
  rw [List.find?_append, h]
  simp [List.find?_cons, matchKey]

theorem findUniqueCartItem_upsert_of_found {s : CartState} {u p : String} {it : CartItem}
    (cq uq : Int) (h : findUniqueCartItem s u p = some it) :
    findUniqueCartItem (upsertCartItem s u p cq uq) u p =
      some { userId := u, productId := p, quantity := uq } := by
  have hany : s.db.any (matchKey u p) = true :=
    List.any_eq_true.mpr ⟨it, List.mem_of_find?_eq_some h, List.find?_some h⟩
  unfold findUniqueCartItem at h ⊢
  unfold upsertCartItem
  rw [if_pos hany]
  exact find?_map_update u p uq s.db it h

theorem findUniqueCartItem_upsert_of_none {s : CartState} {u p : String}
    (cq uq : Int) (h : findUniqueCartItem s u p = none) :
    findUniqueCartItem (upsertCartItem s u p cq uq) u p =
      some { userId := u, productId := p, quantity := cq } := by
  unfold findUniqueCartItem at h
  have hany : ¬ s.db.any (matchKey u p) = true := by
    intro hc
    rcases List.any_eq_true.mp hc with ⟨x, hx, hpx⟩
    exact absurd hpx (List.find?_eq_none.mp h x hx)
  unfold findUniqueCartItem upsertCartItem
  rw [if_neg hany]
  exact find?_append_new u p cq h

theorem findIdx?_ge_start {α : Type} (p : α → Bool) :
    ∀ (l : List α) (n i : Nat), l.findIdx? p n = some i → n ≤ i := by
  intro l
  induction l with
  | nil => intro n i h; simp [List.findIdx?] at h
  | cons a t ih =>
    intro n i h
    rw [List.findIdx?_cons] at h
    by_cases hp : p a = true
    · rw [if_pos hp] at h
      injection h with h
      omega
    · rw [if_neg hp] at h
      have := ih (n + 1) i h
      omega

theorem get?_findIdx?_sub {α : Type} (p : α → Bool) :
    ∀ (l : List α) (n i : Nat), l.findIdx? p n = some i → l.get? (i - n) = l.find? p := by
  intro l
  induction l with
  | nil => intro n i h; simp [List.findIdx?] at h
  | cons a t ih =>
    intro n i h
    rw [List.findIdx?_cons] at h
    by_cases hp : p a = true
    · rw [if_pos hp] at h
      injection h with h
      subst h
      simp [List.find?_cons, hp]
    · rw [if_neg hp] at h
      have hn := findIdx?_ge_start p t (n + 1) i h
      have hst : i - n = (i - (n + 1)) + 1 := by omega
      rw [hst, List.get?_cons_succ]
      simpa [List.find?_cons, hp] using ih (n + 1) i h

theorem find?_set_guest (pid : String) (q : Int) :
    ∀ (l : List GuestItem) (n i : Nat), l.findIdx? (matchPid pid) n = some i →
      (l.set (i - n) { productId := pid, quantity := q }).find? (matchPid pid) =
        some { productId := pid, quantity := q } := by
  intro l
  induction l with
  | nil => intro n i h; simp [List.findIdx?] at h
  | cons a t ih =>
    intro n i h
    rw [List.findIdx?_cons] at h
    by_cases hp : matchPid pid a = true
    · rw [if_pos hp] at h
      injection h with h
      subst h
      rw [Nat.sub_self, List.set_cons_zero]
      have hm : matchPid pid { productId := pid, quantity := q } = true := by simp [matchPid]
      simp [List.find?_cons, hm]
    · rw [if_neg hp] at h
      have hn := findIdx?_ge_start (matchPid pid) t (n + 1) i h
      have hst : i - n = (i - (n + 1)) + 1 := by omega
      rw [hst, List.set_cons_succ]
      simpa [List.find?_cons, hp] using ih (n + 1) i h

theorem pairwise_set_guest (pid : String) (q : Int) :
    ∀ (l : List GuestItem) (n i : Nat), l.findIdx? (matchPid pid) n = some i →
      l.Pairwise (fun a b => a.productId ≠ b.productId) →
      (l.set (i - n) { productId := pid, quantity := q }).Pairwise
        (fun a b => a.productId ≠ b.productId) := by
  intro l
  induction l with
  | nil => intro n i h _; simp [List.findIdx?] at h
  | cons a t ih =>
    intro n i h hpw
    rw [List.pairwise_cons] at hpw
    rw [List.findIdx?_cons] at h
    by_cases hp : matchPid pid a = true
    · rw [if_pos hp] at h
      injection h with h
      subst h
      rw [Nat.sub_self, List.set_cons_zero, List.pairwise_cons]
      refine ⟨?_, hpw.2⟩
      intro b hb
      have ha : a.productId = pid := matchPid_eq_true.mp hp
      simpa using ha ▸ hpw.1 b hb
    · rw [if_neg hp] at h
      have hn := findIdx?_ge_start (matchPid pid) t (n + 1) i h
      have hst : i - n = (i - (n + 1)) + 1 := by omega
      rw [hst, List.set_cons_succ, List.pairwise_cons]
      refine ⟨?_, ih (n + 1) i h hpw.2⟩
      intro b hb
      rcases List.mem_or_eq_of_mem_set hb with hbt | rfl
      · exact hpw.1 b hbt
      · have : ¬ a.productId = pid := by simpa [matchPid] using hp
        simpa using this

theorem find?_filter_matchKey_none (u p : String) (l : List CartItem) :
    (l.filter (fun it => ¬ matchKey u p it)).find? (matchKey u p) = none := by
  rw [List.find?_eq_none]
  intro x hx
  have h2 := (List.mem_filter.mp hx).2
  simpa using h2

theorem find?_filter_matchPid_none (p : String) (l : List GuestItem) :
    (l.filter (fun it => ¬ matchPid p it)).find? (matchPid p) = none := by
  rw [List.find?_eq_none]
  intro x hx
  have h2 := (List.mem_filter.mp hx).2
  simpa using h2

/-- C4: for every owner and product, `updateItem` with quantity 0 runs exactly
the code of `removeItem` (authenticated and guest variants agree on the whole
result: final state and returned `CartSummary`), and after the call no stored
line for that product remains in the cart of that owner. -/
theorem update_to_zero_equals_remove (cat : Catalog) (s : CartState) (u sid pid : String) :
    updateUserCartItem cat s u pid 0 = removeFromUserCart cat s u pid ∧
    updateGuestCartItem cat s sid pid 0 = removeFromGuestCart cat s sid pid ∧
    (∀ s1 sum, updateUserCartItem cat s u pid 0 = .ok (s1, sum) →
      findUniqueCartItem s1 u pid = none) ∧
    (∀ s1 sum gc, updateGuestCartItem cat s sid pid 0 = .ok (s1, sum) →
      guestCartsGet s1.guest sid = some gc → gc.items.find? (matchPid pid) = none) := by
  refine ⟨rfl, rfl, ?_, ?_⟩
  · intro s1 sum h
    have hrem : removeFromUserCart cat s u pid = .ok (s1, sum) := h
    unfold removeFromUserCart at hrem
    simp only [Except.ok.injEq, Prod.mk.injEq] at hrem
    obtain ⟨h1, _⟩ := hrem
    subst h1
    exact find?_filter_matchKey_none u pid s.db
  · intro s1 sum gc h hget
    have hrem : removeFromGuestCart cat s sid pid = .ok (s1, sum) := h
    unfold removeFromGuestCart at hrem
    cases hg : guestCartsGet s.guest sid with
    | none =>
        rw [hg] at hrem
        simp only [Except.ok.injEq, Prod.mk.injEq] at hrem
        obtain ⟨h1, _⟩ := hrem
        subst h1
        rw [hg] at hget
        cases hget
    | some gc0 =>
        rw [hg] at hrem
        simp only [Except.ok.injEq, Prod.mk.injEq] at hrem
        obtain ⟨h1, _⟩ := hrem
        subst h1
        rw [guestCartsGet_set_self] at hget
        cases hget
        exact find?_filter_matchPid_none pid gc0.items

theorem update_to_zero_equals_remove_witness :
    updateUserCartItem demoCatalog demoStockState "u" "C" 0 =
      removeFromUserCart demoCatalog demoStockState "u" "C" ∧
    findUniqueCartItem { db := [], guest := [] } "u" "C" = none :=
  ⟨(update_to_zero_equals_remove demoCatalog demoStockState "u" "g" "C").1,
   (update_to_zero_equals_remove demoCatalog demoStockState "u" "g" "C").2.2.1
     { db := [], guest := [] }
     (getUserCart demoCatalog { db := [], guest := [] } "u") (by decide)⟩

/-- C5 counterexample: `validateCart` called with neither an account
identifier nor a session identifier does not fail/throw with a
`NoCartContext` condition — the source has no `throw` on that path; it
returns the full `CartValidationResult`, flagged invalid, with the error
string `No cart found`. -/
theorem validateCart_no_context_counterexample :
    validateCart demoCatalog demoMergeState none none =
      .ok { isValid := false, errors := ["No cart found"],
            unavailableItems := [], stockIssues := [] } := by
  decide

/-- C5 (amended): `validateCart` never throws for any input — every call
returns a full `CartValidationResult` (missing cart context included):
when neither an account identifier nor a session identifier is truthy,
the returned result is flagged invalid and carries exactly the error
`No cart found`, with no per-line detail. -/
theorem validateCart_never_throws (cat : Catalog) (s : CartState)
    (userId sessionId : Option String) :
    (∃ r, validateCart cat s userId sessionId = .ok r) ∧
    (optTruthy userId = false → optTruthy sessionId = false →
      validateCart cat s userId sessionId =
        .ok { isValid := false, errors := ["No cart found"],
              unavailableItems := [], stockIssues := [] }) := by
  constructor
  · unfold validateCart
    by_cases h1 : optTruthy userId = true
    · rw [if_pos h1]
      exact ⟨_, rfl⟩
    · rw [if_neg h1]
      by_cases h2 : optTruthy sessionId = true
      · rw [if_pos h2]
        exact ⟨_, rfl⟩
      · rw [if_neg h2]
        exact ⟨_, rfl⟩
  · intro h1 h2
    unfold validateCart
    rw [if_neg (by simp [h1]), if_neg (by simp [h2])]

theorem validateCart_never_throws_witness :
    optTruthy none = false ∧
    validateCart demoCatalog demoMergeState none none =
      .ok { isValid := false, errors := ["No cart found"],
            unavailableItems := [], stockIssues := [] } :=
  ⟨by decide,
   (validateCart_never_throws demoCatalog demoMergeState none none).2
     (by decide) (by decide)⟩

/-- C8: removal never errors and always returns the refreshed summary;
when the line is present it is deleted; removing a product that is not in
the cart of the owner leaves the cart unchanged (authenticated: the state is
untouched; guest: a missing session cart is untouched, and an existing
session cart keeps exactly its items). -/
theorem remove_item_idempotent (cat : Catalog) (s : CartState) (u sid pid : String) :
    (∃ s1, removeFromUserCart cat s u pid = .ok (s1, getUserCart cat s1 u) ∧
      findUniqueCartItem s1 u pid = none) ∧
    (findUniqueCartItem s u pid = none →
      removeFromUserCart cat s u pid = .ok (s, getUserCart cat s u)) ∧
    (guestCartsGet s.guest sid = none →
      removeFromGuestCart cat s sid pid = .ok (s, createEmptyCartSummary)) ∧
    (∀ gc, guestCartsGet s.guest sid = some gc →
      ∃ s1 gc1, removeFromGuestCart cat s sid pid = .ok (s1, getGuestCart cat s1 sid) ∧
        guestCartsGet s1.guest sid = some gc1 ∧ gc1.items.find? (matchPid pid) = none) ∧
    (∀ gc, guestCartsGet s.guest sid = some gc → gc.items.find? (matchPid pid) = none →
      ∃ s1, removeFromGuestCart cat s sid pid = .ok (s1, getGuestCart cat s1 sid) ∧
        guestCartsGet s1.guest sid = some gc) := by
  refine ⟨⟨_, rfl, find?_filter_matchKey_none u pid s.db⟩, ?_, ?_, ?_, ?_⟩
  · intro h
    have hself : s.db.filter (fun it => ¬ matchKey u pid it) = s.db := by
      rw [List.filter_eq_self]
      intro a ha
      simpa using List.find?_eq_none.mp h a ha
    unfold removeFromUserCart
    rw [hself]
  · intro hg
    unfold removeFromGuestCart
    rw [hg]
  · intro gc hg
    unfold removeFromGuestCart
    rw [hg]
    exact ⟨_, _, rfl, guestCartsGet_set_self _ _ _, find?_filter_matchPid_none pid gc.items⟩
  · intro gc hg hnone
    have hself : gc.items.filter (fun it => ¬ matchPid pid it) = gc.items := by
      rw [List.filter_eq_self]
      intro a ha
      simpa using List.find?_eq_none.mp hnone a ha
    unfold removeFromGuestCart
    rw [hg]
    dsimp only
    rw [hself]
    exact ⟨_, rfl, guestCartsGet_set_self _ _ _⟩

theorem remove_item_idempotent_witness :
    findUniqueCartItem demoStockState "u" "A" = none ∧
    removeFromUserCart demoCatalog demoStockState "u" "A" =
      .ok (demoStockState, getUserCart demoCatalog demoStockState "u") :=
  ⟨by decide,
   (remove_item_idempotent demoCatalog demoStockState "u" "g" "A").2.1 (by decide)⟩

theorem find?_append_guest (pid : String) (q : Int) {l : List GuestItem}
    (h : l.findIdx? (matchPid pid) = none) :
    (l ++ [({ productId := pid, quantity := q } : GuestItem)]).find? (matchPid pid) =
      some { productId := pid, quantity := q } := by
  have hf : l.find? (matchPid pid) = none := by
    rw [List.find?_eq_none]
    intro x hx
    have hx2 := List.findIdx?_eq_none_iff.mp h x hx
    simp [hx2]
  rw [List.find?_append, hf]
  simp [List.find?_cons, matchPid]

/-- C10: the Cart Manager itself performs no positivity check on add.
For an existing product with nonnegative stock and any owner holding no
line for it — an authenticated cart without the row, a guest session
whose cart exists but has no entry for the product, or a guest session
with no cart at all (the source defaults it to an empty item array) —
the service-level add succeeds for quantity 0 or any negative quantity
and stores a line with that non-positive quantity; the `quantity > 0`
constraint lives only in the HTTP layer `addToCartSchema`, which rejects
every such quantity. -/
theorem service_add_allows_nonpositive_quantity (cat : Catalog) (s : CartState)
    (u sid pid : String) (q : Int) (prod : Product)
    (hp : getProductById cat pid = some prod) (hstock : 0 ≤ prod.stock) (hq : q ≤ 0) :
    (findUniqueCartItem s u pid = none →
      ∃ s1, addToUserCart cat s u pid q = .ok (s1, getUserCart cat s1 u) ∧
        findUniqueCartItem s1 u pid =
          some { userId := u, productId := pid, quantity := q }) ∧
    (∀ gc, gc = (guestCartsGet s.guest sid).getD { items := [] } →
      gc.items.findIdx? (matchPid pid) = none →
      ∃ s1 gc1, addToGuestCart cat s sid pid q = .ok (s1, getGuestCart cat s1 sid) ∧
        guestCartsGet s1.guest sid = some gc1 ∧
        gc1.items.find? (matchPid pid) =
          some { productId := pid, quantity := q }) ∧
    addToCartSchemaQuantityOk q = false := by
  refine ⟨?_, ?_, ?_⟩
  · intro hfind
    have hcq : userCombinedQuantity s u pid q = q := by
      unfold userCombinedQuantity
      rw [hfind]
    unfold addToUserCart
    rw [hp]
    dsimp only
    rw [hcq, if_neg (by omega : ¬ prod.stock < q)]
    exact ⟨_, rfl, findUniqueCartItem_upsert_of_none q q hfind⟩
  · intro gc hgc hidx
    subst hgc
    have hcq : guestCombinedQuantity ((guestCartsGet s.guest sid).getD { items := [] }) pid q = q := by
      unfold guestCombinedQuantity
      rw [hidx]
      rfl
    unfold addToGuestCart
    rw [hp]
    dsimp only
    rw [hcq, if_neg (by omega : ¬ prod.stock < q), hidx]
    refine ⟨_, _, rfl, guestCartsGet_set_self _ _ _, ?_⟩
    exact find?_append_guest pid q hidx
  · simp only [addToCartSchemaQuantityOk, decide_eq_false_iff_not]
    omega

theorem service_add_allows_nonpositive_quantity_witness :
    getProductById demoCatalog "C" = some { id := "C", name := "C", price := 1, stock := 4 } ∧
    ((guestCartsGet demoMergeState.guest "g").getD { items := [] }).items.findIdx?
        (matchPid "C") = none ∧
    addToCartSchemaQuantityOk 0 = false ∧
    (∃ s1 gc1, addToGuestCart demoCatalog demoMergeState "g" "C" 0 =
        .ok (s1, getGuestCart demoCatalog s1 "g") ∧
      guestCartsGet s1.guest "g" = some gc1 ∧
      gc1.items.find? (matchPid "C") = some { productId := "C", quantity := 0 }) :=
  ⟨by decide, by decide,
   (service_add_allows_nonpositive_quantity demoCatalog demoMergeState "u" "g" "C" 0
      { id := "C", name := "C", price := 1, stock := 4 }
      (by decide) (by decide) (by decide)).2.2,
   (service_add_allows_nonpositive_quantity demoCatalog demoMergeState "u" "g" "C" 0
      { id := "C", name := "C", price := 1, stock := 4 }
      (by decide) (by decide) (by decide)).2.1 _ rfl (by decide)⟩

/-- C2: for every owner, product and positive quantity, add computes the
combined post-add quantity (existing line quantity plus the delta, or the
delta alone) and fails with `InsufficientStock` — carrying available and
requested — exactly when the stock of the product is below that combined
quantity; on success the line is upserted to the combined quantity.  Both
the authenticated and the guest variant are covered. -/
theorem add_item_combined_stock_check (cat : Catalog) (s : CartState)
    (u sid pid : String) (q : Int) (prod : Product)
    (hp : getProductById cat pid = some prod) (hq : 0 < q) :
    (prod.stock < userCombinedQuantity s u pid q →
      addToUserCart cat s u pid q =
        .error (.insufficientStock prod.stock (userCombinedQuantity s u pid q))) ∧
    (userCombinedQuantity s u pid q ≤ prod.stock →
      ∃ s1, addToUserCart cat s u pid q = .ok (s1, getUserCart cat s1 u) ∧
        findUniqueCartItem s1 u pid =
          some { userId := u, productId := pid, quantity := userCombinedQuantity s u pid q }) ∧
    (∀ gc, gc = (guestCartsGet s.guest sid).getD { items := [] } →
      (prod.stock < guestCombinedQuantity gc pid q →
        addToGuestCart cat s sid pid q =
          .error (.insufficientStock prod.stock (guestCombinedQuantity gc pid q))) ∧
      (guestCombinedQuantity gc pid q ≤ prod.stock →
        ∃ s1 gc1, addToGuestCart cat s sid pid q = .ok (s1, getGuestCart cat s1 sid) ∧
          guestCartsGet s1.guest sid = some gc1 ∧
          gc1.items.find? (matchPid pid) =
            some { productId := pid, quantity := guestCombinedQuantity gc pid q })) := by
  refine ⟨?_, ?_, ?_⟩
  · intro h
    unfold addToUserCart
    rw [hp]
    dsimp only
    rw [if_pos h]
  · intro h
    unfold addToUserCart
    rw [hp]
    dsimp only
    rw [if_neg (not_lt.mpr h)]
    refine ⟨_, rfl, ?_⟩
    cases hfind : findUniqueCartItem s u pid with
    | some it => exact findUniqueCartItem_upsert_of_found q _ hfind
    | none =>
        have hcq : userCombinedQuantity s u pid q = q := by
          unfold userCombinedQuantity
          rw [hfind]
        rw [hcq]
        exact findUniqueCartItem_upsert_of_none q _ hfind
  · intro gc hgc
    subst hgc
    constructor
    · intro h
      unfold addToGuestCart
      rw [hp]
      dsimp only
      rw [if_pos h]
    · intro h
      unfold addToGuestCart
      rw [hp]
      dsimp only
      rw [if_neg (not_lt.mpr h)]
      cases hidx : ((guestCartsGet s.guest sid).getD { items := [] }).items.findIdx? (matchPid pid) with
      | some i =>
          refine ⟨_, _, rfl, guestCartsGet_set_self _ _ _, ?_⟩
          exact find?_set_guest pid _ _ 0 i hidx
      | none =>
          have hcq : guestCombinedQuantity ((guestCartsGet s.guest sid).getD { items := [] }) pid q = q := by
            unfold guestCombinedQuantity
            rw [hidx]
            rfl
          refine ⟨_, _, rfl, guestCartsGet_set_self _ _ _, ?_⟩
          rw [hcq]
          exact find?_append_guest pid q hidx

theorem add_item_combined_stock_check_witness :
    getProductById demoCatalog "C" = some { id := "C", name := "C", price := 1, stock := 4 } ∧
    (0 : Int) < 2 ∧
    userCombinedQuantity demoStockState "u" "C" 2 = 5 ∧
    addToUserCart demoCatalog demoStockState "u" "C" 2 =
      .error (.insufficientStock 4 5) ∧
    userCombinedQuantity demoStockState "u" "C" 1 = 4 := by
  refine ⟨by decide, by decide, by decide, ?_, by decide⟩
  have h := (add_item_combined_stock_check demoCatalog demoStockState "u" "g" "C" 2
    { id := "C", name := "C", price := 1, stock := 4 } (by decide) (by decide)).1 (by decide)
  simpa using h

/-- C3: for every owner, product and nonzero quantity, update validates
stock against the requested absolute quantity alone — it fails with
`InsufficientStock` carrying `(stock, q)` exactly when `stock < q`,
independent of any existing line quantity; when the product exists and
stock suffices but the owner holds no line for it, it fails with the
cart-item-not-found condition (for a guest session without any cart, the
guest-cart-not-found condition) and never creates a line; on success the
existing line is replaced with quantity `q`. -/
theorem update_item_absolute_stock_check (cat : Catalog) (s : CartState)
    (u sid pid : String) (q : Int) (prod : Product)
    (hp : getProductById cat pid = some prod) (hq : q ≠ 0) :
    (prod.stock < q →
      updateUserCartItem cat s u pid q = .error (.insufficientStock prod.stock q) ∧
      updateGuestCartItem cat s sid pid q = .error (.insufficientStock prod.stock q)) ∧
    (q ≤ prod.stock → findUniqueCartItem s u pid = none →
      updateUserCartItem cat s u pid q = .error .cartItemNotFound) ∧
    (q ≤ prod.stock → ∀ it, findUniqueCartItem s u pid = some it →
      ∃ s1, updateUserCartItem cat s u pid q = .ok (s1, getUserCart cat s1 u) ∧
        findUniqueCartItem s1 u pid =
          some { userId := u, productId := pid, quantity := q }) ∧
    (q ≤ prod.stock → guestCartsGet s.guest sid = none →
      updateGuestCartItem cat s sid pid q = .error .guestCartNotFound) ∧
    (q ≤ prod.stock → ∀ gc, guestCartsGet s.guest sid = some gc →
      gc.items.findIdx? (matchPid pid) = none →
      updateGuestCartItem cat s sid pid q = .error .cartItemNotFound) ∧
    (q ≤ prod.stock → ∀ gc i, guestCartsGet s.guest sid = some gc →
      gc.items.findIdx? (matchPid pid) = some i →
      ∃ s1 gc1, updateGuestCartItem cat s sid pid q = .ok (s1, getGuestCart cat s1 sid) ∧
        guestCartsGet s1.guest sid = some gc1 ∧
        gc1.items.find? (matchPid pid) =
          some { productId := pid, quantity := q }) := by
  refine ⟨?_, ?_, ?_, ?_, ?_, ?_⟩
  · intro h
    constructor
    · unfold updateUserCartItem
      rw [if_neg hq, hp]
      dsimp only
      rw [if_pos h]
    · unfold updateGuestCartItem
      rw [if_neg hq, hp]
      dsimp only
      rw [if_pos h]
  · intro h hfind
    unfold updateUserCartItem
    rw [if_neg hq, hp]
    dsimp only
    rw [if_neg (not_lt.mpr h), hfind]
  · intro h it hfind
    unfold updateUserCartItem
    rw [if_neg hq, hp]
    dsimp only
    rw [if_neg (not_lt.mpr h), hfind]
    exact ⟨_, rfl, find?_map_update u pid q s.db it hfind⟩
  · intro h hg
    unfold updateGuestCartItem
    rw [if_neg hq, hp]
    dsimp only
    rw [if_neg (not_lt.mpr h), hg]
  · intro h gc hg hidx
    unfold updateGuestCartItem
    rw [if_neg hq, hp]
    dsimp only
    rw [if_neg (not_lt.mpr h), hg]
    dsimp only
    rw [hidx]
  · intro h gc i hg hidx
    unfold updateGuestCartItem
    rw [if_neg hq, hp]
    dsimp only
    rw [if_neg (not_lt.mpr h), hg]
    dsimp only
    rw [hidx]
    exact ⟨_, _, rfl, guestCartsGet_set_self _ _ _, find?_set_guest pid q _ 0 i hidx⟩

theorem update_item_absolute_stock_check_witness :
    getProductById demoCatalog "C" = some { id := "C", name := "C", price := 1, stock := 4 } ∧
    (5 : Int) ≠ 0 ∧ (4 : Int) < 5 ∧
    updateUserCartItem demoCatalog demoStockState "u" "C" 5 =
      .error (.insufficientStock 4 5) ∧
    findUniqueCartItem demoStockState "u" "A" = none ∧
    updateUserCartItem demoCatalog demoStockState "u" "A" 1 = .error .cartItemNotFound := by
  refine ⟨by decide, by decide, by decide, ?_, by decide, ?_⟩
  · exact ((update_item_absolute_stock_check demoCatalog demoStockState "u" "g" "C" 5
      { id := "C", name := "C", price := 1, stock := 4 } (by decide) (by decide)).1
        (by decide)).1
  · exact (update_item_absolute_stock_check demoCatalog demoStockState "u" "g" "A" 1
      { id := "A", name := "A", price := 7, stock := 10 } (by decide) (by decide)).2.1
        (by decide) (by decide)

/-- C1: merge is best-effort per guest line and total — its result type has
no error outcome, matching the source where every per-line failure is
caught and logged.  A line whose product lookup fails, or whose combined
quantity exceeds the stock of the product, leaves the account cart untouched
(silently skipped); after the call the guest cart no longer exists, however
many lines were skipped.  The closing conjuncts run the example of the spec:
guest A×2 (stock 10) and B×5 (stock 2) merged into an empty account cart
yield exactly A×2, B absent, guest cart gone. -/
theorem merge_best_effort (cat : Catalog) (s : CartState) (u g : String) :
    guestCartsGet (mergeGuestCartWithUserCart cat s u g).1.guest g = none ∧
    (∀ acc gi, getProductById cat gi.productId = none → mergeStep cat u acc gi = acc) ∧
    (∀ acc gi prod, getProductById cat gi.productId = some prod →
      prod.stock < mergeNewQuantity acc u gi → mergeStep cat u acc gi = acc) ∧
    (mergeGuestCartWithUserCart demoCatalog demoMergeState "u" "g").1.db =
      [{ userId := "u", productId := "A", quantity := 2 }] ∧
    guestCartsGet (mergeGuestCartWithUserCart demoCatalog demoMergeState "u" "g").1.guest "g" =
      none := by
  refine ⟨?_, ?_, ?_, by decide, by decide⟩
  · unfold mergeGuestCartWithUserCart
    cases hg : guestCartsGet s.guest g with
    | none => exact hg
    | some gc => exact guestCartsGet_delete_self _ g
  · intro acc gi h
    simp only [mergeStep, h]
  · intro acc gi prod h h2
    simp only [mergeStep, h]
    rw [if_neg (not_le.mpr h2)]

theorem merge_best_effort_witness :
    getProductById demoCatalog "Y" = none ∧
    mergeStep demoCatalog "u" demoMergeState { productId := "Y", quantity := 1 } =
      demoMergeState ∧
    getProductById demoCatalog "B" = some { id := "B", name := "B", price := 3, stock := 2 } ∧
    (2 : Int) < mergeNewQuantity demoMergeState "u" { productId := "B", quantity := 5 } ∧
    mergeStep demoCatalog "u" demoMergeState { productId := "B", quantity := 5 } =
      demoMergeState :=
  ⟨by decide,
   (merge_best_effort demoCatalog demoMergeState "u" "g").2.1 demoMergeState
     { productId := "Y", quantity := 1 } (by decide),
   by decide, by decide,
   (merge_best_effort demoCatalog demoMergeState "u" "g").2.2.1 demoMergeState
     { productId := "B", quantity := 5 }
     { id := "B", name := "B", price := 3, stock := 2 } (by decide) (by decide)⟩

/-- C7: one merge loop iteration for a guest line whose product resolves
and whose combined quantity fits in stock upserts the account line to the
existing account quantity plus the guest quantity (mirroring the add
accumulation), or to the guest quantity alone when no account line exists.
The closing conjunct runs the example of the spec: account A×1, guest A×2,
stock 10 — after the full merge the account holds A×3. -/
theorem merge_accumulates_quantities (cat : Catalog) (u : String)
    (acc : CartState) (gi : GuestItem) (prod : Product)
    (hp : getProductById cat gi.productId = some prod)
    (hs : mergeNewQuantity acc u gi ≤ prod.stock) :
    (∀ it, findUniqueCartItem acc u gi.productId = some it →
      findUniqueCartItem (mergeStep cat u acc gi) u gi.productId =
        some { userId := u, productId := gi.productId,
               quantity := it.quantity + gi.quantity }) ∧
    (findUniqueCartItem acc u gi.productId = none →
      findUniqueCartItem (mergeStep cat u acc gi) u gi.productId =
        some { userId := u, productId := gi.productId, quantity := gi.quantity }) ∧
    (mergeGuestCartWithUserCart demoCatalog demoAccumState "u" "g").1.db =
      [{ userId := "u", productId := "A", quantity := 3 }] := by
  refine ⟨?_, ?_, by decide⟩
  · intro it hfind
    have hq : mergeNewQuantity acc u gi = it.quantity + gi.quantity := by
      unfold mergeNewQuantity
      rw [hfind]
    simp only [mergeStep, hp]
    rw [if_pos hs, hq]
    exact hq ▸ findUniqueCartItem_upsert_of_found gi.quantity _ hfind
  · intro hfind
    simp only [mergeStep, hp]
    rw [if_pos hs]
    exact findUniqueCartItem_upsert_of_none gi.quantity _ hfind

theorem merge_accumulates_quantities_witness :
    getProductById demoCatalog "A" = some { id := "A", name := "A", price := 7, stock := 10 } ∧
    mergeNewQuantity demoAccumState "u" { productId := "A", quantity := 2 } = 3 ∧
    findUniqueCartItem demoAccumState "u" "A" =
      some { userId := "u", productId := "A", quantity := 1 } ∧
    findUniqueCartItem
        (mergeStep demoCatalog "u" demoAccumState { productId := "A", quantity := 2 }) "u" "A" =
      some { userId := "u", productId := "A", quantity := 3 } :=
  ⟨by decide, by decide, by decide,
   (merge_accumulates_quantities demoCatalog "u" demoAccumState
      { productId := "A", quantity := 2 }
      { id := "A", name := "A", price := 7, stock := 10 } (by decide) (by decide)).1
     { userId := "u", productId := "A", quantity := 1 } (by decide)⟩

theorem upsertCartItem_guest (s : CartState) (u p : String) (cq uq : Int) :
    (upsertCartItem s u p cq uq).guest = s.guest := by
  unfold upsertCartItem
  split <;> rfl

theorem dbwf_map_preserve (g : CartItem → CartItem)
    (hg : ∀ it, (g it).userId = it.userId ∧ (g it).productId = it.productId)
    {db : List CartItem} (h : DBWellFormed db) : DBWellFormed (db.map g) := by
  unfold DBWellFormed at h ⊢
  rw [List.pairwise_map]
  refine h.imp ?_
  intro a b hab hc
  exact hab ⟨by rw [← (hg a).1, ← (hg b).1]; exact hc.1,
             by rw [← (hg a).2, ← (hg b).2]; exact hc.2⟩

theorem dbwf_upsert (s : CartState) (u p : String) (cq uq : Int)
    (h : DBWellFormed s.db) : DBWellFormed (upsertCartItem s u p cq uq).db := by
  unfold upsertCartItem
  split
  · exact dbwf_map_preserve _
      (fun it => by by_cases hm : matchKey u p it = true <;> simp [hm]) h
  · next hany =>
    show DBWellFormed (s.db ++ [{ userId := u, productId := p, quantity := cq }])
    unfold DBWellFormed
    rw [List.pairwise_append]
    refine ⟨h, List.pairwise_singleton _ _, ?_⟩
    intro a ha b hb
    simp only [List.mem_singleton] at hb
    subst hb
    intro hc
    exact hany (List.any_eq_true.mpr ⟨a, ha, matchKey_eq_true.mpr ⟨hc.1, hc.2⟩⟩)

theorem cartStateWF_upsert (s : CartState) (u p : String) (cq uq : Int)
    (h : CartStateWF s) : CartStateWF (upsertCartItem s u p cq uq) :=
  ⟨dbwf_upsert s u p cq uq h.1, by rw [upsertCartItem_guest]; exact h.2⟩

theorem gcwf_of_get {g : GuestCarts} {sid : String} {gc : GuestCart}
    (hwf : ∀ e ∈ g, GuestCartWellFormed e.2)
    (h : guestCartsGet g sid = some gc) : GuestCartWellFormed gc := by
  unfold guestCartsGet at h
  cases hf : g.find? (fun e => decide (e.1 = sid)) with
  | none =>
      rw [hf] at h
      cases h
  | some e =>
      rw [hf] at h
      cases h
      exact hwf e (List.mem_of_find?_eq_some hf)

theorem gcwf_getD {g : GuestCarts} (hwf : ∀ e ∈ g, GuestCartWellFormed e.2) (sid : String) :
    GuestCartWellFormed ((guestCartsGet g sid).getD { items := [] }) := by
  cases hg : guestCartsGet g sid with
  | none => exact List.Pairwise.nil
  | some gc => exact gcwf_of_get hwf hg

theorem guestWF_set {g : GuestCarts} {sid : String} {c : GuestCart}
    (hg : ∀ e ∈ g, GuestCartWellFormed e.2) (hc : GuestCartWellFormed c) :
    ∀ e ∈ guestCartsSet g sid c, GuestCartWellFormed e.2 := by
  intro e he
  rcases mem_guestCartsSet he with rfl | hmem
  · exact hc
  · exact hg e hmem

theorem gcwf_append_new {items : List GuestItem} {pid : String} (q : Int)
    (hwf : items.Pairwise (fun a b => a.productId ≠ b.productId))
    (hidx : items.findIdx? (matchPid pid) = none) :
    (items ++ [({ productId := pid, quantity := q } : GuestItem)]).Pairwise
      (fun a b => a.productId ≠ b.productId) := by
  rw [List.pairwise_append]
  refine ⟨hwf, List.pairwise_singleton _ _, ?_⟩
  intro a ha b hb
  simp only [List.mem_singleton] at hb
  subst hb
  have hfalse := List.findIdx?_eq_none_iff.mp hidx a ha
  simpa [matchPid] using hfalse

theorem mergeStep_guest (cat : Catalog) (u : String) (acc : CartState) (gi : GuestItem) :
    (mergeStep cat u acc gi).guest = acc.guest := by
  unfold mergeStep
  cases hp : getProductById cat gi.productId with
  | none => rfl
  | some prod =>
      dsimp only
      split
      · rw [upsertCartItem_guest]
      · rfl

theorem cartStateWF_mergeStep (cat : Catalog) (u : String) (acc : CartState)
    (gi : GuestItem) (h : CartStateWF acc) : CartStateWF (mergeStep cat u acc gi) := by
  unfold mergeStep
  cases hp : getProductById cat gi.productId with
  | none => exact h
  | some prod =>
      dsimp only
      split
      · exact cartStateWF_upsert _ _ _ _ _ h
      · exact h

theorem cartStateWF_merge_foldl (cat : Catalog) (u : String) :
    ∀ (l : List GuestItem) (acc : CartState),
      CartStateWF acc → CartStateWF (l.foldl (mergeStep cat u) acc) := by
  intro l
  induction l with
  | nil => intro acc h; exact h
  | cons a t ih =>
      intro acc h
      rw [List.foldl_cons]
      exact ih _ (cartStateWF_mergeStep cat u acc a h)

theorem merge_foldl_guest (cat : Catalog) (u : String) :
    ∀ (l : List GuestItem) (acc : CartState),
      (l.foldl (mergeStep cat u) acc).guest = acc.guest := by
  intro l
  induction l with
  | nil => intro acc; rfl
  | cons a t ih =>
      intro acc
      rw [List.foldl_cons, ih, mergeStep_guest]

/-- C9: every cart operation — add, update, remove, clear, merge, for both
authenticated and guest owners — preserves the invariant that each
cart holds at most one line per product (the `cart_items` unique index and
the guest-cart item arrays).  The closing conjunct runs the
accumulation example: adding A×2 then A×3 to an empty account cart yields
the single line A×5, never two parallel lines. -/
theorem cart_ops_preserve_unique_lines (cat : Catalog) (s : CartState)
    (u sid pid : String) (q : Int) (hwf : CartStateWF s) :
    (∀ s1 sum, addToUserCart cat s u pid q = .ok (s1, sum) → CartStateWF s1) ∧
    (∀ s1 sum, updateUserCartItem cat s u pid q = .ok (s1, sum) → CartStateWF s1) ∧
    (∀ s1 sum, removeFromUserCart cat s u pid = .ok (s1, sum) → CartStateWF s1) ∧
    CartStateWF (clearUserCart s u) ∧
    (∀ s1 sum, addToGuestCart cat s sid pid q = .ok (s1, sum) → CartStateWF s1) ∧
    (∀ s1 sum, updateGuestCartItem cat s sid pid q = .ok (s1, sum) → CartStateWF s1) ∧
    (∀ s1 sum, removeFromGuestCart cat s sid pid = .ok (s1, sum) → CartStateWF s1) ∧
    CartStateWF (clearGuestCart s sid) ∧
    CartStateWF (mergeGuestCartWithUserCart cat s u sid).1 ∧
    (addToUserCart demoCatalog { db := [], guest := [] } "u" "A" 2).toOption.map
        (fun r => (addToUserCart demoCatalog r.1 "u" "A" 3).toOption.map (fun r2 => r2.1.db)) =
      some (some [{ userId := "u", productId := "A", quantity := 5 }]) := by
  have hremU : ∀ s1 sum, removeFromUserCart cat s u pid = .ok (s1, sum) → CartStateWF s1 := by
    intro s1 sum h
    unfold removeFromUserCart at h
    simp only [Except.ok.injEq, Prod.mk.injEq] at h
    obtain ⟨h1, _⟩ := h
    subst h1
    exact ⟨List.Pairwise.sublist (List.filter_sublist s.db) hwf.1, hwf.2⟩
  have hremG : ∀ s1 sum, removeFromGuestCart cat s sid pid = .ok (s1, sum) → CartStateWF s1 := by
    intro s1 sum h
    unfold removeFromGuestCart at h
    cases hg : guestCartsGet s.guest sid with
    | none =>
        rw [hg] at h
        simp only [Except.ok.injEq, Prod.mk.injEq] at h
        obtain ⟨h1, _⟩ := h
        subst h1
        exact hwf
    | some gc =>
        rw [hg] at h
        simp only [Except.ok.injEq, Prod.mk.injEq] at h
        obtain ⟨h1, _⟩ := h
        subst h1
        refine ⟨hwf.1, guestWF_set hwf.2 ?_⟩
        exact List.Pairwise.sublist (List.filter_sublist gc.items) (gcwf_of_get hwf.2 hg)
  refine ⟨?_, ?_, hremU, ?_, ?_, ?_, hremG, ?_, ?_, by decide⟩
  · intro s1 sum h
    unfold addToUserCart at h
    cases hp : getProductById cat pid with
    | none =>
        rw [hp] at h
        cases h
    | some prod =>
        rw [hp] at h
        dsimp only at h
        split at h
        · cases h
        · simp only [Except.ok.injEq, Prod.mk.injEq] at h
          obtain ⟨h1, _⟩ := h
          subst h1
          exact cartStateWF_upsert _ _ _ _ _ hwf
  · intro s1 sum h
    unfold updateUserCartItem at h
    split at h
    · exact hremU s1 sum h
    · cases hp : getProductById cat pid with
      | none =>
          rw [hp] at h
          cases h
      | some prod =>
          rw [hp] at h
          dsimp only at h
          split at h
          · cases h
          · cases hfind : findUniqueCartItem s u pid with
            | none =>
                rw [hfind] at h
                cases h
            | some it =>
                rw [hfind] at h
                dsimp only at h
                simp only [Except.ok.injEq, Prod.mk.injEq] at h
                obtain ⟨h1, _⟩ := h
                subst h1
                refine ⟨?_, hwf.2⟩
                exact dbwf_map_preserve _
                  (fun x => by by_cases hm : matchKey u pid x = true <;> simp [hm]) hwf.1
  · exact ⟨List.Pairwise.sublist (List.filter_sublist s.db) hwf.1, hwf.2⟩
  · intro s1 sum h
    unfold addToGuestCart at h
    cases hp : getProductById cat pid with
    | none =>
        rw [hp] at h
        cases h
    | some prod =>
        rw [hp] at h
        dsimp only at h
        split at h
        · cases h
        · simp only [Except.ok.injEq, Prod.mk.injEq] at h
          obtain ⟨h1, _⟩ := h
          subst h1
          refine ⟨hwf.1, guestWF_set hwf.2 ?_⟩
          cases hidx : ((guestCartsGet s.guest sid).getD { items := [] }).items.findIdx?
              (matchPid pid) with
          | some i => exact pairwise_set_guest pid _ _ 0 i hidx (gcwf_getD hwf.2 sid)
          | none => exact gcwf_append_new q (gcwf_getD hwf.2 sid) hidx
  · intro s1 sum h
    unfold updateGuestCartItem at h
    split at h
    · exact hremG s1 sum h
    · cases hp : getProductById cat pid with
      | none =>
          rw [hp] at h
          cases h
      | some prod =>
          rw [hp] at h
          dsimp only at h
          split at h
          · cases h
          · cases hg : guestCartsGet s.guest sid with
            | none =>
                rw [hg] at h
                cases h
            | some gc =>
                rw [hg] at h
                dsimp only at h
                cases hidx : gc.items.findIdx? (matchPid pid) with
                | none =>
                    rw [hidx] at h
                    cases h
                | some i =>
                    rw [hidx] at h
                    dsimp only at h
                    simp only [Except.ok.injEq, Prod.mk.injEq] at h
                    obtain ⟨h1, _⟩ := h
                    subst h1
                    refine ⟨hwf.1, guestWF_set hwf.2 ?_⟩
                    exact pairwise_set_guest pid q _ 0 i hidx (gcwf_of_get hwf.2 hg)
  · exact ⟨hwf.1, guestWF_set hwf.2 List.Pairwise.nil⟩
  · unfold mergeGuestCartWithUserCart
    cases hg : guestCartsGet s.guest sid with
    | none => exact hwf
    | some gc =>
        dsimp only
        have h1 := cartStateWF_merge_foldl cat u gc.items s hwf
        exact ⟨h1.1, fun e he => h1.2 e (mem_guestCartsDelete he)⟩

theorem cart_ops_preserve_unique_lines_witness :
    CartStateWF demoAccumState ∧
    CartStateWF (mergeGuestCartWithUserCart demoCatalog demoAccumState "u" "g").1 := by
  have hwf : CartStateWF demoAccumState := by
    constructor
    · unfold DBWellFormed demoAccumState
      exact List.pairwise_singleton _ _
    · intro e he
      unfold demoAccumState at he
      simp only [List.mem_singleton] at he
      subst he
      exact List.pairwise_singleton _ _
  exact ⟨hwf,
    (cart_ops_preserve_unique_lines demoCatalog demoAccumState "u" "g" "A" 1 hwf).2.2.2.2.2.2.2.2.1⟩
